import Mathlib

/-!
Verification development for the manifest-assembly subsystem of the
repository (package `manifests`, file
`vendor/github.com/openshift/installer/pkg/asset/manifests/operators.go`).

Go strings are modelled as Lean `String`s (with proofs carried out on their
underlying `List Char`); Go byte slices holding text are likewise `String`s.
The single pointer that matters for the mutation claims — the
`Platform.VSphere *VSpherePlatform` field of the install configuration — is
modelled with an explicit heap of vSphere platform records, so that the
difference between writing through the shared pointer and copying the
pointee (what the code actually does) is observable.
-/

namespace ARORP

/-! ### The install configuration and its collaborators

`types.InstallConfig` and the `installconfig` asset wrapper are vendored
collaborator types whose sources are not part of the studied core. -/

/-- Modelled from the spec: the vSphere platform credential sub-record of the
install configuration (`types.VSpherePlatform`): username and password
credential fields plus representative non-secret fields. -/
structure VSpherePlatform where
  username : String
  password : String
  vCenter : String
  datacenter : String
deriving DecidableEq, Repr

/-- A heap of vSphere platform records; a `Platform.VSphere` pointer is an
index into this list.  Allocation appends a fresh cell. -/
def Heap := List VSpherePlatform

/-- Read the cell at address `a`. -/
def Heap.read (h : Heap) (a : Nat) : Option VSpherePlatform :=
  List.get? h a

/-- Number of allocated cells. -/
def Heap.size (h : Heap) : Nat := List.length h

/-- Allocate a fresh cell holding `p`; returns the new heap and the address. -/
def Heap.alloc (h : Heap) (p : VSpherePlatform) : Heap × Nat :=
  (List.append h [p], List.length h)

/-- Modelled from the spec: the publishing-strategy enumeration
(`types.PublishingStrategy`, values `External` / `Internal`). -/
inductive PublishingStrategy where
  | external
  | internal
deriving DecidableEq, Repr

/-- Modelled from the spec: one image-content-source entry
(`types.ImageContentSource`): a source registry plus its mirror list. -/
structure ImageContentSource where
  source : String
  mirrors : List String
deriving DecidableEq, Repr

/-- Modelled from the spec: the platform sub-record of the install
configuration; only the vSphere member is relevant to redaction, held by
pointer as in the Go struct (`VSphere *vspheretypes.Platform`). -/
structure Platform where
  vsphere : Option Nat
deriving DecidableEq, Repr

/-- Modelled from the spec: `types.InstallConfig` — at minimum a pull secret,
a publishing strategy, an image-content-source list and the optional
platform credential sub-record, plus representative other fields
(`baseDomain`, a nested networking structure). -/
structure InstallConfig where
  baseDomain : String
  pullSecret : String
  publish : PublishingStrategy
  imageContentSources : List ImageContentSource
  machineCIDR : String
  platform : Platform
deriving DecidableEq, Repr

/-- The heap-free view of an install configuration: what the owner of the
configuration observes when reading it, with the vSphere pointer
dereferenced.  Used to state redaction and non-mutation properties. -/
structure InstallConfigView where
  baseDomain : String
  pullSecret : String
  publish : PublishingStrategy
  imageContentSources : List ImageContentSource
  machineCIDR : String
  vsphere : Option VSpherePlatform
deriving DecidableEq, Repr

/-- Dereference the configuration's pointers against a heap. -/
def InstallConfig.view (c : InstallConfig) (h : Heap) : InstallConfigView :=
  { baseDomain := c.baseDomain
    pullSecret := c.pullSecret
    publish := c.publish
    imageContentSources := c.imageContentSources
    machineCIDR := c.machineCIDR
    vsphere := c.platform.vsphere.bind h.read }

/-- Well-formedness: the vSphere pointer, when present, points into the heap. -/
def InstallConfig.wfIn (c : InstallConfig) (h : Heap) : Prop :=
  ∀ a, c.platform.vsphere = some a → a < h.size

def PublishingStrategy.render : PublishingStrategy → String
  | .external => "External"
  | .internal => "Internal"

def ImageContentSource.render (ics : ImageContentSource) : String :=
  "- source: " ++ ics.source ++ " mirrors: [" ++ String.intercalate ", " ics.mirrors ++ "]"

def renderVSphere : Option VSpherePlatform → String
  | none => "null"
  | some p =>
      "vcenter: " ++ p.vCenter ++ " datacenter: " ++ p.datacenter ++
      " username: " ++ p.username ++ " password: " ++ p.password

/-- Modelled from the spec: the deterministic serialization (`yaml.Marshal`
of `ghodss/yaml`, stable key ordering) of an install configuration.  Every
field of the structure appears in the output in a fixed order. -/
def renderInstallConfig (v : InstallConfigView) : String :=
  "baseDomain: " ++ v.baseDomain ++ "\n" ++
  "imageContentSources:\n" ++ String.intercalate "\n" (v.imageContentSources.map ImageContentSource.render) ++ "\n" ++
  "machineCIDR: " ++ v.machineCIDR ++ "\n" ++
  "platform:\n  vsphere: " ++ renderVSphere v.vsphere ++ "\n" ++
  "publish: " ++ v.publish.render ++ "\n" ++
  "pullSecret: " ++ v.pullSecret ++ "\n"

/-- Serialization of an install configuration that still holds a pointer:
dereference, then render. -/
def marshalInstallConfig (c : InstallConfig) (h : Heap) : String :=
  renderInstallConfig (c.view h)

/-- Fallback value used when dereferencing (never reached on well-formed
configurations; Go cannot hold a non-nil dangling pointer here). -/
def vsphereZero : VSpherePlatform := ⟨"", "", "", ""⟩

/-- Embedding of `redactedInstallConfig` (operators.go:289-298): take the
configuration by value, clear the pull secret, and — when the vSphere
sub-config pointer is non-nil — copy the pointee, clear the copy's username
and password, and repoint the local configuration value at the fresh copy;
then marshal.  Returns the serialized bytes and the heap after the call. -/
def redactedInstallConfig (config : InstallConfig) (h : Heap) : String × Heap :=
  let config1 : InstallConfig := { config with pullSecret := "" }
  match config1.platform.vsphere with
  | none => (marshalInstallConfig config1 h, h)
  | some a =>
      let p := (h.read a).getD vsphereZero
      let p1 : VSpherePlatform := { p with username := "", password := "" }
      let alloc := h.alloc p1
      let config2 : InstallConfig :=
        { config1 with platform := { config1.platform with vsphere := some alloc.2 } }
      (marshalInstallConfig config2 alloc.1, alloc.1)

/-- Clearing the credential fields of a vSphere record. -/
def clearVSphereCreds (p : VSpherePlatform) : VSpherePlatform :=
  { p with username := "", password := "" }

/-! ### The `indent` template helper -/

/-- Character-level replacement of every line break by a line break followed
by `n` spaces: the effect of `strings.Replace(v, "\n", "\n"+strings.Repeat(" ", n), -1)`
for a single-character pattern (all occurrences, left to right). -/
def replNL (n : Nat) : List Char → List Char
  | [] => []
  | c :: rest => (if c = '\n' then '\n' :: List.replicate n ' ' else [c]) ++ replNL n rest

/-- Embedding of `indent` (operators.go:300-303).  The replacement string is
built first via `strings.Repeat(" ", indention)`, which panics on a negative
count before any replacement is attempted; `none` models that panic. -/
def indent (indention : Int) (v : String) : Option String :=
  if indention < 0 then none
  else some ⟨replNL indention.toNat v.data⟩

/-- Every line break in `l` is immediately followed by at least `n` spaces. -/
def afterNLAtLeast (n : Nat) : List Char → Bool
  | [] => true
  | c :: rest =>
      if c = '\n' then
        decide (List.take n rest = List.replicate n ' ') && afterNLAtLeast n rest
      else afterNLAtLeast n rest

/-- Every line break in `l` is immediately followed by exactly `n` spaces:
`n` spaces follow and the character after them, if any, is not a space. -/
def afterNLExact (n : Nat) : List Char → Bool
  | [] => true
  | c :: rest =>
      if c = '\n' then
        decide (List.take n rest = List.replicate n ' ') &&
        !(rest.get? n == some ' ') &&
        afterNLExact n rest
      else afterNLExact n rest

/-! ### The ARO worker-registries data URL -/

/-- Characters kept verbatim by the percent encoding (RFC 3986 unreserved). -/
def urlUnreserved (c : Char) : Bool :=
  (97 ≤ c.toNat && c.toNat ≤ 122) || (65 ≤ c.toNat && c.toNat ≤ 90) ||
  (48 ≤ c.toNat && c.toNat ≤ 57) || c = '-' || c = '_' || c = '.' || c = '~'

/-- Upper-case hexadecimal digit for `n < 16`. -/
def hexDigit (n : Nat) : Char :=
  if n < 10 then Char.ofNat (48 + n) else Char.ofNat (55 + n)

/-- Numeric value of an upper-case hexadecimal digit. -/
def hexVal (c : Char) : Nat :=
  if 48 ≤ c.toNat ∧ c.toNat ≤ 57 then c.toNat - 48
  else if 65 ≤ c.toNat ∧ c.toNat ≤ 70 then c.toNat - 55
  else 0

def percentEncodeChar (c : Char) : List Char :=
  if urlUnreserved c then [c]
  else ['%', hexDigit (c.toNat / 16), hexDigit (c.toNat % 16)]

def percentEncode : List Char → List Char
  | [] => []
  | c :: rest => percentEncodeChar c ++ percentEncode rest

def percentDecode : List Char → List Char
  | '%' :: h :: l :: rest => Char.ofNat (16 * hexVal h + hexVal l) :: percentDecode rest
  | c :: rest => c :: percentDecode rest
  | [] => []

/-- Modelled from the spec: `dataurl.New(b, "text/plain")` with
`du.Encoding = dataurl.EncodingASCII` rendered by `du.String()` (the
`vincent-petithory/dataurl` collaborator, not part of the studied core): the
scheme and media type followed by the percent-encoded payload, all on a
single line. -/
def dataurlString (payload : String) : String :=
  "data:text/plain," ++ ⟨percentEncode payload.data⟩

/-- The `[[registry]]` format line of operators.go:311, with the source
substituted for the `%s` verb. -/
def registryLine (source : String) : String :=
  "\n[[registry]]\n  prefix = \"\"\n  location = \"" ++ source ++
  "\"\n  mirror-by-digest-only = true\n"

/-- The `[[registry.mirror]]` format line of operators.go:314, with the
mirror substituted for the `%s` verb. -/
def mirrorLine (mirror : String) : String :=
  "\n  [[registry.mirror]]\n    location = \"" ++ mirror ++ "\"\n"

/-- Embedding of `aroWorkerRegistries` (operators.go:305-322): print the
default unqualified-search-registries line into a buffer, then per
image-content-source entry a `[[registry]]` block and, nested, per mirror a
`[[registry.mirror]]` block; data-URL-encode the buffer. -/
def aroWorkerRegistries (icss : List ImageContentSource) : String :=
  let b := "unqualified-search-registries = [\"registry.access.redhat.com\", \"docker.io\"]\n"
  let b := icss.foldl (fun b ics =>
    let b := b ++ registryLine ics.source
    ics.mirrors.foldl (fun b mirror => b ++ mirrorLine mirror) b) b
  dataurlString b

/-- The text block one image-content-source entry contributes: its
`[[registry]]` block followed by one `[[registry.mirror]]` block per mirror,
in order. -/
def icsBlock (ics : ImageContentSource) : String :=
  registryLine ics.source ++ String.join (ics.mirrors.map mirrorLine)

/-- The registries configuration block: the unconditional default line, then
one block per entry in list order. -/
def registriesConf (icss : List ImageContentSource) : String :=
  "unqualified-search-registries = [\"registry.access.redhat.com\", \"docker.io\"]\n" ++
  String.join (icss.map icsBlock)

/-- Number of positions of `l` at which `pat` occurs as a substring. -/
def countOccur (pat : List Char) : List Char → Nat
  | [] => 0
  | c :: rest => (if List.isPrefixOf pat (c :: rest) then 1 else 0) + countOccur pat rest

set_option maxRecDepth 8000

/-! ### Files, the control-manifest object and the yaml boundary -/

/-- Modelled from the spec: the metadata of the control-manifest object
(name and namespace). -/
structure ObjectMeta where
  name : String
  nspace : String
deriving DecidableEq, Repr

/-- Modelled from the spec: `configurationObject` — a minimal typed wrapper
carrying apiVersion, kind, metadata and a generic string-keyed string-valued
data map (association list, in insertion order). -/
structure configurationObject where
  apiVersion : String
  kind : String
  metadata : ObjectMeta
  data : List (String × String)
deriving DecidableEq, Repr

/-- Modelled from the spec: the `configMap` constructor of the manifests
package: a v1 ConfigMap shell around the generic data. -/
def configMap (nspace name : String) (data : List (String × String)) : configurationObject :=
  { apiVersion := "v1", kind := "ConfigMap", metadata := ⟨name, nspace⟩, data := data }

/-- The serialized bytes of a file.  `str` is opaque text (rendered template
output or collaborator-produced bytes); `obj` is the `yaml.Marshal` image of
a `configurationObject`, modelling that serialization boundary injectively:
unmarshalling an `obj` recovers the object, unmarshalling other bytes as a
`configurationObject` fails. -/
inductive FileData where
  | str (s : String)
  | obj (c : configurationObject)
deriving DecidableEq, Repr

/-- Modelled from the spec: `yaml.Unmarshal` into a `configurationObject`. -/
def unmarshalConfigObject : FileData → Except String configurationObject
  | .obj c => .ok c
  | .str _ => .error "error converting YAML to JSON"

/-- An output file: `asset.File`, a relative path plus raw bytes. -/
structure File where
  filename : String
  data : FileData
deriving DecidableEq, Repr

def manifestDir : String := "manifests"

/-- Embedding of `kubeSysConfigPath` (operators.go:28): `filepath.Join(manifestDir, "cluster-config.yaml")`. -/
def kubeSysConfigPath : String := "manifests/cluster-config.yaml"

/-! ### The template renderer -/

/-- A parsed template token: literal text or a field reference. -/
inductive TmplToken where
  | lit (s : String)
  | field (name : String)
deriving DecidableEq, Repr

/-- Modelled from the spec: bundled template text as handed to
`text/template`: either well-formed — a parsed sequence of literal and
field-substitution tokens — or syntactically malformed (`template.Must`
rejects it). -/
inductive TemplateSrc where
  | wellFormed (tokens : List TmplToken)
  | malformed
deriving DecidableEq, Repr

/-- Embedding of `bootkubeTemplateData` (the template context built at
operators.go:178-201), with the Go field names. -/
structure bootkubeTemplateData where
  CVOClusterID : String
  EtcdCaBundle : String
  EtcdMetricCaCert : String
  EtcdMetricSignerCert : String
  EtcdMetricSignerClientCert : String
  EtcdMetricSignerClientKey : String
  EtcdMetricSignerKey : String
  EtcdSignerCert : String
  EtcdSignerClientCert : String
  EtcdSignerClientKey : String
  EtcdSignerKey : String
  McsTLSCert : String
  McsTLSKey : String
  PullSecretBase64 : String
  RootCaCert : String
  AROWorkerRegistries : String
  AROIngressIP : String
  AROIngressInternal : Bool
  AROImageRegistryHTTPSecret : String
  AROImageRegistryAccountName : String
  AROImageRegistryContainerName : String
  AROCloudName : String
deriving DecidableEq, Repr

/-- Field resolution against the template context; `none` is
`text/template`'s "can't evaluate field" execution error. -/
def lookupField (td : bootkubeTemplateData) : String → Option String
  | "CVOClusterID" => some td.CVOClusterID
  | "EtcdCaBundle" => some td.EtcdCaBundle
  | "EtcdMetricCaCert" => some td.EtcdMetricCaCert
  | "EtcdMetricSignerCert" => some td.EtcdMetricSignerCert
  | "EtcdMetricSignerClientCert" => some td.EtcdMetricSignerClientCert
  | "EtcdMetricSignerClientKey" => some td.EtcdMetricSignerClientKey
  | "EtcdMetricSignerKey" => some td.EtcdMetricSignerKey
  | "EtcdSignerCert" => some td.EtcdSignerCert
  | "EtcdSignerClientCert" => some td.EtcdSignerClientCert
  | "EtcdSignerClientKey" => some td.EtcdSignerClientKey
  | "EtcdSignerKey" => some td.EtcdSignerKey
  | "McsTLSCert" => some td.McsTLSCert
  | "McsTLSKey" => some td.McsTLSKey
  | "PullSecretBase64" => some td.PullSecretBase64
  | "RootCaCert" => some td.RootCaCert
  | "AROWorkerRegistries" => some td.AROWorkerRegistries
  | "AROIngressIP" => some td.AROIngressIP
  | "AROIngressInternal" => some (if td.AROIngressInternal then "true" else "false")
  | "AROImageRegistryHTTPSecret" => some td.AROImageRegistryHTTPSecret
  | "AROImageRegistryAccountName" => some td.AROImageRegistryAccountName
  | "AROImageRegistryContainerName" => some td.AROImageRegistryContainerName
  | "AROCloudName" => some td.AROCloudName
  | _ => none

/-- Modelled from the spec: `Template.Execute` on a parsed token sequence:
substitute each field from the context, failing on an unresolvable field. -/
def execTemplate (tokens : List TmplToken) (td : bootkubeTemplateData) :
    Except String String :=
  tokens.foldlM (fun acc tok =>
    match tok with
    | .lit s => .ok (acc ++ s)
    | .field n =>
        match lookupField td n with
        | some v => .ok (acc ++ v)
        | none => .error ("can't evaluate field " ++ n)) ""

/-- Embedding of `applyTemplateData` (operators.go:236-243): `template.Must`
panics on a parse failure, and an `Execute` error is panicked as well;
`none` models the process-fatal panic.  The return type carries no error
value: rendering never returns a recoverable error to its caller. -/
def applyTemplateData (data : TemplateSrc) (td : bootkubeTemplateData) : Option String :=
  match data with
  | .malformed => none
  | .wellFormed tokens =>
      match execTemplate tokens td with
      | .error _ => none
      | .ok out => some out

/-- A template context with every field empty, for concrete evaluation. -/
def tdZero : bootkubeTemplateData :=
  ⟨"", "", "", "", "", "", "", "", "", "", "", "", "", "", "", "", "", false, "", "", "", ""⟩

/-! ### Base64, path helpers, dependency inputs -/

def base64Chars : List Char :=
  "ABCDEFGHIJKLMNOPQRSTUVWXYZabcdefghijklmnopqrstuvwxyz0123456789+/".data

def b64Char (n : Nat) : Char := (base64Chars.get? n).getD 'A'

/-- Standard base64 of a byte sequence (RFC 4648, with padding), the
algorithm of Go's `base64.StdEncoding.EncodeToString`. -/
def base64EncodeBytes : List Nat → List Char
  | [] => []
  | [b0] => [b64Char (b0 / 4), b64Char (b0 % 4 * 16), '=', '=']
  | [b0, b1] => [b64Char (b0 / 4), b64Char (b0 % 4 * 16 + b1 / 16), b64Char (b1 % 16 * 4), '=']
  | b0 :: b1 :: b2 :: rest =>
      b64Char (b0 / 4) :: b64Char (b0 % 4 * 16 + b1 / 16) ::
      b64Char (b1 % 16 * 4 + b2 / 64) :: b64Char (b2 % 64) :: base64EncodeBytes rest

def base64Encode (s : String) : String :=
  ⟨base64EncodeBytes (s.data.map Char.toNat)⟩

/-- Embedding of `filepath.Base` for slash-separated paths: empty path gives ".",
trailing slashes are trimmed, all-slash paths give "/", otherwise the last
path element. -/
def goBase (s : String) : String :=
  if s = "" then "."
  else
    let l := s.data.reverse.dropWhile (· = '/')
    if l = [] then "/"
    else ⟨(l.takeWhile (· ≠ '/')).reverse⟩

/-- Embedding of `strings.TrimSuffix`. -/
def trimSuffix (s sfx : String) : String :=
  if List.isSuffixOf sfx.data s.data then ⟨s.data.take (s.data.length - sfx.data.length)⟩
  else s

/-- Embedding of `filepath.Join(manifestDir, name)` for the clean relative names used
here. -/
def manifestPath (name : String) : String := manifestDir ++ "/" ++ name

/-- A TLS certificate/key collaborator asset: `Cert()` and `Key()` PEM
bytes. -/
structure CertKeyPair where
  cert : String
  key : String
deriving DecidableEq, Repr

/-- One file of a bundled bootkube template asset: its filename (possibly
carrying a `.template` suffix) and its template text. -/
structure TemplateFile where
  filename : String
  src : TemplateSrc
deriving DecidableEq, Repr

/-- Modelled from the spec: the `installconfig.InstallConfig` asset wrapper:
the install configuration plus the ARO Azure session's cloud name
(`installConfig.Azure.CloudName.Name()`). -/
structure InstallConfigAsset where
  config : InstallConfig
  azureCloudName : String
deriving DecidableEq, Repr

/-- The resolved dependency values `Manifests.Generate` pulls from
`asset.Parents` (operators.go:55-97): the install-config and cluster-id
assets, the file-producing collaborator assets, the TLS assets, the ARO
DNS / image-registry configs, and — flattened in the fixed iteration order
of operators.go:204-224 — the files of the 19 bundled bootkube template
assets. -/
structure Parents where
  clusterID : String
  installConfig : InstallConfigAsset
  ingressFiles : List File
  dnsFiles : List File
  networkFiles : List File
  infraFiles : List File
  proxyFiles : List File
  schedulerFiles : List File
  icspFiles : List File
  etcdSignerCertKey : CertKeyPair
  etcdSignerClientCertKey : CertKeyPair
  etcdMetricSignerCertKey : CertKeyPair
  etcdMetricSignerClientCertKey : CertKeyPair
  mcsCertKey : CertKeyPair
  etcdCABundleCert : String
  etcdMetricCABundleCert : String
  rootCACert : String
  aroDNSIngressIP : String
  aroImageRegistryHTTPSecret : String
  aroImageRegistryAccountName : String
  aroImageRegistryContainerName : String
  bootkubeTemplateFiles : List TemplateFile
deriving DecidableEq, Repr

/-- The template context built at operators.go:178-201: certificate material
base64- or PEM-encoded, the cluster UUID, the pull secret base64-encoded
(from the unredacted configuration), the worker-registries data URL, and the
ARO ingress/registry values. -/
def mkBootkubeTemplateData (p : Parents) : bootkubeTemplateData :=
  { CVOClusterID := p.clusterID
    EtcdCaBundle := p.etcdCABundleCert
    EtcdMetricCaCert := p.etcdMetricCABundleCert
    EtcdMetricSignerCert := base64Encode p.etcdMetricSignerCertKey.cert
    EtcdMetricSignerClientCert := base64Encode p.etcdMetricSignerClientCertKey.cert
    EtcdMetricSignerClientKey := base64Encode p.etcdMetricSignerClientCertKey.key
    EtcdMetricSignerKey := base64Encode p.etcdMetricSignerCertKey.key
    EtcdSignerCert := base64Encode p.etcdSignerCertKey.cert
    EtcdSignerClientCert := base64Encode p.etcdSignerClientCertKey.cert
    EtcdSignerClientKey := base64Encode p.etcdSignerClientCertKey.key
    EtcdSignerKey := base64Encode p.etcdSignerCertKey.key
    McsTLSCert := base64Encode p.mcsCertKey.cert
    McsTLSKey := base64Encode p.mcsCertKey.key
    PullSecretBase64 := base64Encode p.installConfig.config.pullSecret
    RootCaCert := p.rootCACert
    AROWorkerRegistries := aroWorkerRegistries p.installConfig.config.imageContentSources
    AROIngressIP := p.aroDNSIngressIP
    AROIngressInternal := decide (p.installConfig.config.publish = .internal)
    AROImageRegistryHTTPSecret := p.aroImageRegistryHTTPSecret
    AROImageRegistryAccountName := p.aroImageRegistryAccountName
    AROImageRegistryContainerName := p.aroImageRegistryContainerName
    AROCloudName := p.installConfig.azureCloudName }

/-- The output filename of one rendered bootkube template file
(operators.go:228): `manifests/` plus the base name with any `.template`
suffix stripped. -/
def bootkubeOutName (f : TemplateFile) : String :=
  manifestPath (trimSuffix (goBase f.filename) ".template")

/-- Embedding of `Manifests.generateBootKubeManifests`
(operators.go:150-234): build the shared template context, then render each
bundled template file in order under its transformed name.  `none`
propagates a template panic. -/
def generateBootKubeManifests (p : Parents) : Option (List File) :=
  let templateData := mkBootkubeTemplateData p
  p.bootkubeTemplateFiles.mapM (fun f =>
    (applyTemplateData f.src templateData).map fun out =>
      { filename := bootkubeOutName f, data := .str out })

/-- The `Manifests` asset's own output fields (`KubeSysConfig`, `FileList`);
`kubeSysConfig = none` is the Go nil pointer of a fresh value. -/
structure Manifests where
  kubeSysConfig : Option configurationObject
  fileList : List File
deriving DecidableEq, Repr

/-- Lexicographic comparison of character sequences (by code point), the
order of Go's `<` on strings restricted to the ASCII filenames used here. -/
def lexLe : List Char → List Char → Bool
  | [], _ => true
  | _ :: _, [] => false
  | a :: as, b :: bs =>
      if a.toNat < b.toNat then true
      else if b.toNat < a.toNat then false
      else lexLe as bs

/-- The by-filename lexicographic order files are sorted in. -/
def fileLE (a b : File) : Prop := lexLe a.filename.data b.filename.data = true

instance : DecidableRel fileLE := fun a b =>
  inferInstanceAs (Decidable (lexLe a.filename.data b.filename.data = true))

/-- Totality of the lexicographic comparison (a proof-producing definition,
used by the sort-order instances below). -/
def lexLe_total : ∀ x y : List Char, lexLe x y = true ∨ lexLe y x = true
  | [], _ => .inl rfl
  | _ :: _, [] => .inr rfl
  | x :: xs, y :: ys => by
      rw [lexLe, lexLe]
      by_cases h1 : x.toNat < y.toNat
      · left
        simp [h1]
      · by_cases h2 : y.toNat < x.toNat
        · right
          simp [h2]
        · rcases lexLe_total xs ys with h | h
          · left
            simp [h1, h2, h]
          · right
            simp [h1, h2, h]

/-- Transitivity of the lexicographic comparison (a proof-producing
definition, used by the sort-order instances below). -/
def lexLe_trans :
    ∀ x y z : List Char, lexLe x y = true → lexLe y z = true → lexLe x z = true
  | [], _, _, _, _ => rfl
  | x :: xs, [], _, hxy, _ => by simp [lexLe] at hxy
  | x :: xs, y :: ys, [], _, hyz => by simp [lexLe] at hyz
  | x :: xs, y :: ys, z :: zs, hxy, hyz => by
      rw [lexLe] at hxy hyz ⊢
      by_cases a1 : x.toNat < y.toNat
      · by_cases b1 : y.toNat < z.toNat
        · simp [show x.toNat < z.toNat by omega]
        · by_cases b2 : z.toNat < y.toNat
          · rw [if_neg b1, if_pos b2] at hyz
            exact absurd hyz (by simp)
          · simp [show x.toNat < z.toNat by omega]
      · by_cases a2 : y.toNat < x.toNat
        · rw [if_neg a1, if_pos a2] at hxy
          exact absurd hxy (by simp)
        · rw [if_neg a1, if_neg a2] at hxy
          by_cases b1 : y.toNat < z.toNat
          · simp [show x.toNat < z.toNat by omega]
          · by_cases b2 : z.toNat < y.toNat
            · rw [if_neg b1, if_pos b2] at hyz
              exact absurd hyz (by simp)
            · rw [if_neg b1, if_neg b2] at hyz
              rw [if_neg (show ¬ x.toNat < z.toNat by omega),
                if_neg (show ¬ z.toNat < x.toNat by omega)]
              exact lexLe_trans xs ys zs hxy hyz

instance : IsTotal File fileLE :=
  ⟨fun a b => lexLe_total a.filename.data b.filename.data⟩

instance : IsTrans File fileLE :=
  ⟨fun a b c => lexLe_trans a.filename.data b.filename.data c.filename.data⟩

/-- Modelled from the spec: `asset.SortFiles` — sort the file list
lexicographically by filename. -/
def sortFiles (l : List File) : List File :=
  l.insertionSort fileLE

/-- Embedding of `Manifests.Generate` (operators.go:100-143): redact the
install configuration, embed it as the `install-config` datum of the
kube-system/cluster-config-v1 config map, marshal that object as the
control manifest file, append the rendered bootkube manifests and then each
collaborator asset's files in the fixed order, and sort by filename.
`none` propagates a template panic out of the bootkube rendering. -/
def Manifests.generate (p : Parents) (h : Heap) : Option Manifests :=
  let redacted := redactedInstallConfig p.installConfig.config h
  let kubeSysConfig := configMap "kube-system" "cluster-config-v1"
    [("install-config", redacted.1)]
  match generateBootKubeManifests p with
  | none => none
  | some bootkubeFiles =>
      some { kubeSysConfig := some kubeSysConfig
             fileList := sortFiles
               (({ filename := kubeSysConfigPath, data := .obj kubeSysConfig } :: bootkubeFiles)
                 ++ p.ingressFiles ++ p.dnsFiles ++ p.networkFiles ++ p.infraFiles
                 ++ p.proxyFiles ++ p.schedulerFiles ++ p.icspFiles) }

/-- The `asset.FileFetcher` collaborator: pattern to fetched files, or an
I/O error. -/
def FileFetcher := String → Except String (List File)

/-- Embedding of `errors.Wrap`: message, colon, cause. -/
def wrapErr (msg e : String) : String := msg ++ ": " ++ e

/-- The loop of operators.go:268-275: scan the fetched files for the
control-manifest path, unmarshalling each hit (a failure aborts the load);
the accumulator holds the last successfully unmarshalled hit. -/
def scanKubeSys : List File → Option configurationObject →
    Except String (Option configurationObject)
  | [], acc => .ok acc
  | f :: rest, acc =>
      if f.filename = kubeSysConfigPath then
        match unmarshalConfigObject f.data with
        | .error e => .error (wrapErr (wrapErr "failed to unmarshal" kubeSysConfigPath) e)
        | .ok c => scanKubeSys rest (some c)
      else scanKubeSys rest acc

/-- Embedding of `Manifests.Load` (operators.go:246-287): fetch the three
extension patterns in order (any fetch failure is wrapped and returned, the
asset untouched); an empty combined set is "not found, no error"; otherwise
look for the control manifest among the fetched files — absent means "not
found, no error", present means store the full fetched set (sorted) and the
parsed object and report found.  The second component is the asset state
after the call. -/
def Manifests.load (f : FileFetcher) (m : Manifests) : Except String Bool × Manifests :=
  match f "manifests/*.yaml" with
  | .error e => (.error (wrapErr "failed to load *.yaml files" e), m)
  | .ok yamlFileList =>
    match f "manifests/*.yml" with
    | .error e => (.error (wrapErr "failed to load *.yml files" e), m)
    | .ok ymlFileList =>
      match f "manifests/*.json" with
      | .error e => (.error (wrapErr "failed to load *.json files" e), m)
      | .ok jsonFileList =>
        let fileList := yamlFileList ++ ymlFileList ++ jsonFileList
        if fileList.length = 0 then (.ok false, m)
        else
          match scanKubeSys fileList none with
          | .error e => (.error e, m)
          | .ok none => (.ok false, m)
          | .ok (some kubeSysConfig) =>
              (.ok true, { kubeSysConfig := some kubeSysConfig
                           fileList := sortFiles fileList })

/-- Embedding of `filepath.Match` for the patterns `manifests/*<ext>`: the literal
directory prefix, then a slash-free base carrying the extension as a
suffix. -/
def matchExt (ext : String) (name : String) : Bool :=
  List.isPrefixOf ("manifests/" : String).data name.data &&
  (let base := name.data.drop 10
   base.all (fun c => c ≠ '/') && List.isSuffixOf ext.data base)

/-- Modelled from the spec: a persisted `manifests/` directory holding
exactly `files`, exposed through the `FetchByPattern` contract for the three
patterns the loader uses. -/
def fetchFrom (files : List File) : FileFetcher := fun pattern =>
  if pattern = "manifests/*.yaml" then
    .ok (files.filter (fun f => matchExt ".yaml" f.filename))
  else if pattern = "manifests/*.yml" then
    .ok (files.filter (fun f => matchExt ".yml" f.filename))
  else if pattern = "manifests/*.json" then
    .ok (files.filter (fun f => matchExt ".json" f.filename))
  else .ok []

/-- A fetcher whose every fetch fails, for concrete evaluation. -/
def fetchFail : FileFetcher := fun _ => .error "input output error"

/-- A concrete full dependency-input set on which Generate succeeds. -/
def pW : Parents :=
  { clusterID := "uuid-1"
    installConfig := ⟨⟨"example.com", "abc", .internal,
        [⟨"registry.local", ["mirror1", "mirror2"]⟩], "10.0.0.0/16", ⟨none⟩⟩,
      "AzurePublicCloud"⟩
    ingressFiles := [⟨"manifests/ingress.yml", .str "ing"⟩]
    dnsFiles := []
    networkFiles := [⟨"manifests/net.json", .str "net"⟩]
    infraFiles := []
    proxyFiles := []
    schedulerFiles := []
    icspFiles := []
    etcdSignerCertKey := ⟨"c1", "k1"⟩
    etcdSignerClientCertKey := ⟨"c2", "k2"⟩
    etcdMetricSignerCertKey := ⟨"c3", "k3"⟩
    etcdMetricSignerClientCertKey := ⟨"c4", "k4"⟩
    mcsCertKey := ⟨"c5", "k5"⟩
    etcdCABundleCert := "ca"
    etcdMetricCABundleCert := "mca"
    rootCACert := "root"
    aroDNSIngressIP := "10.0.0.4"
    aroImageRegistryHTTPSecret := "hs"
    aroImageRegistryAccountName := "acct"
    aroImageRegistryContainerName := "cont"
    bootkubeTemplateFiles :=
      [⟨"templates/pull.yaml.template", .wellFormed [.lit "ps: ", .field "PullSecretBase64"]⟩] }

/-- The Generate output at `pW` over the empty heap. -/
def mW : Manifests := (Manifests.generate pW []).getD ⟨none, []⟩

instance {e a : Type} [DecidableEq e] [DecidableEq a] : DecidableEq (Except e a) :=
  fun x y =>
  match x, y with
  | .error u, .error v => if h : u = v then .isTrue (by rw [h]) else .isFalse (by simp [h])
  | .ok u, .ok v => if h : u = v then .isTrue (by rw [h]) else .isFalse (by simp [h])
  | .error _, .ok _ => .isFalse (by simp)
  | .ok _, .error _ => .isFalse (by simp)

/-- The control-manifest object a Generate call embeds. -/
def generatedKubeSys (p : Parents) (h : Heap) : configurationObject :=
  configMap "kube-system" "cluster-config-v1"
    [("install-config", (redactedInstallConfig p.installConfig.config h).1)]

/-- The control-manifest file of a Generate call. -/
def controlFile (p : Parents) (h : Heap) : File :=
  { filename := kubeSysConfigPath, data := .obj (generatedKubeSys p h) }

/-- A dependency-input set whose ingress collaborator supplies two files
with the same name; Generate succeeds on it without any deduplication. -/
def pEx : Parents :=
  { clusterID := "uuid-2"
    installConfig := ⟨⟨"example.org", "s", .external, [], "10.1.0.0/16", ⟨none⟩⟩, "pub"⟩
    ingressFiles := [⟨"manifests/dup.yaml", .str "x"⟩, ⟨"manifests/dup.yaml", .str "y"⟩]
    dnsFiles := []
    networkFiles := []
    infraFiles := []
    proxyFiles := []
    schedulerFiles := []
    icspFiles := []
    etcdSignerCertKey := ⟨"", ""⟩
    etcdSignerClientCertKey := ⟨"", ""⟩
    etcdMetricSignerCertKey := ⟨"", ""⟩
    etcdMetricSignerClientCertKey := ⟨"", ""⟩
    mcsCertKey := ⟨"", ""⟩
    etcdCABundleCert := ""
    etcdMetricCABundleCert := ""
    rootCACert := ""
    aroDNSIngressIP := ""
    aroImageRegistryHTTPSecret := ""
    aroImageRegistryAccountName := ""
    aroImageRegistryContainerName := ""
    bootkubeTemplateFiles := [] }

/-! ### Theorems -/

theorem Heap.read_append_lt (h : Heap) (l : List VSpherePlatform) (a : Nat)
    (ha : a < h.size) : Heap.read (List.append h l) a = Heap.read h a := by
  simp only [Heap.read, List.append_eq]
  exact List.get?_append ha

theorem Heap.read_alloc_self (h : Heap) (p : VSpherePlatform) :
    Heap.read (h.alloc p).1 (h.alloc p).2 = some p := by
  simp only [Heap.alloc, Heap.read, List.append_eq]
  rw [List.get?_append_right (Nat.le_refl _)]
  simp

theorem redactedInstallConfig_fst (c : InstallConfig) (h : Heap)
    (hwf : c.wfIn h) :
    (redactedInstallConfig c h).1 =
      renderInstallConfig
        { c.view h with
            pullSecret := ""
            vsphere := (c.view h).vsphere.map clearVSphereCreds } := by
  rcases hv : c.platform.vsphere with _ | a
  · simp [redactedInstallConfig, hv, marshalInstallConfig, InstallConfig.view]
  · have ha : a < h.size := hwf a hv
    rcases hp : Heap.read h a with _ | p
    · exfalso
      rw [Heap.read, List.get?_eq_none] at hp
      exact Nat.lt_irrefl a (Nat.lt_of_lt_of_le ha hp)
    simp only [redactedInstallConfig, hv, marshalInstallConfig, InstallConfig.view, hp,
      Option.getD_some, Option.some_bind]
    rw [Heap.read_alloc_self]
    simp [hp, clearVSphereCreds]

/-- C1: redaction clears exactly the pull secret and, when the vSphere
sub-config is present, its username and password; every other field of the
dereferenced configuration is serialized unchanged, and neither the heap
cells the caller can reach nor the caller's view of its own configuration
change across the call. -/
theorem redactedInstallConfig_spec (c : InstallConfig) (h : Heap)
    (hwf : c.wfIn h) :
    (redactedInstallConfig c h).1 =
      renderInstallConfig
        { c.view h with
            pullSecret := ""
            vsphere := (c.view h).vsphere.map clearVSphereCreds } ∧
    (∀ a, a < h.size → Heap.read (redactedInstallConfig c h).2 a = Heap.read h a) ∧
    c.view (redactedInstallConfig c h).2 = c.view h := by
  refine ⟨redactedInstallConfig_fst c h hwf, ?_, ?_⟩
  · rcases hv : c.platform.vsphere with _ | a
    · intro a ha
      simp [redactedInstallConfig, hv]
    · intro b hb
      simp only [redactedInstallConfig, hv, Heap.alloc]
      exact Heap.read_append_lt h _ b hb
  · rcases hv : c.platform.vsphere with _ | a
    · simp [redactedInstallConfig, hv]
    · have ha : a < h.size := hwf a hv
      rcases hp : Heap.read h a with _ | p
      · exfalso
        rw [Heap.read, List.get?_eq_none] at hp
        exact Nat.lt_irrefl a (Nat.lt_of_lt_of_le ha hp)
      simp only [redactedInstallConfig, hv, Heap.alloc, InstallConfig.view, hp]
      have : Heap.read (List.append h
          [clearVSphereCreds ((h.read a).getD vsphereZero)]) a = Heap.read h a :=
        Heap.read_append_lt h _ a ha
      simp_all [clearVSphereCreds]

/-- Witness for `redactedInstallConfig_spec` at a concrete configuration
with a populated vSphere sub-config. -/
theorem redactedInstallConfig_spec_witness :
    (InstallConfig.wfIn
        ⟨"example.com", "topsecret", .internal, [], "10.0.0.0/16", ⟨some 0⟩⟩
        [⟨"u", "pw", "vc", "dc"⟩]) ∧
    (redactedInstallConfig
        ⟨"example.com", "topsecret", .internal, [], "10.0.0.0/16", ⟨some 0⟩⟩
        [⟨"u", "pw", "vc", "dc"⟩]).1 =
      renderInstallConfig ⟨"example.com", "", .internal, [], "10.0.0.0/16",
        some ⟨"", "", "vc", "dc"⟩⟩ := by
  have hwf : InstallConfig.wfIn
      ⟨"example.com", "topsecret", .internal, [], "10.0.0.0/16", ⟨some 0⟩⟩
      [⟨"u", "pw", "vc", "dc"⟩] := by
    intro a ha
    injection ha with h2
    have hs : Heap.size ([⟨"u", "pw", "vc", "dc"⟩] : Heap) = 1 := rfl
    omega
  refine ⟨hwf, ?_⟩
  have := (redactedInstallConfig_spec
    ⟨"example.com", "topsecret", .internal, [], "10.0.0.0/16", ⟨some 0⟩⟩
    [⟨"u", "pw", "vc", "dc"⟩] hwf).1
  rw [this]
  rfl

theorem replNL_count (n : Nat) (l : List Char) :
    (replNL n l).count '\n' = l.count '\n' := by
  induction l with
  | nil => rfl
  | cons c rest ih =>
      by_cases hc : c = '\n'
      · simp [replNL, hc, List.count_cons, List.count_append, ih,
          List.count_replicate, List.count_eq_zero_of_not_mem]
      · simp [replNL, hc, List.count_cons, ih]

theorem replNL_length (n : Nat) (l : List Char) :
    (replNL n l).length = l.length + l.count '\n' * n := by
  induction l with
  | nil => simp [replNL]
  | cons c rest ih =>
      by_cases hc : c = '\n'
      · simp [replNL, hc, List.count_cons, ih]
        ring
      · simp [replNL, hc, List.count_cons, ih]
        omega

theorem replNL_of_count_zero (n : Nat) (l : List Char) (hl : l.count '\n' = 0) :
    replNL n l = l := by
  induction l with
  | nil => rfl
  | cons c rest ih =>
      rw [List.count_cons] at hl
      by_cases hc : c = '\n'
      · simp [hc] at hl
      · have h0 : rest.count '\n' = 0 := by simpa [hc] using hl
        simp [replNL, hc, ih h0]

theorem afterNLAtLeast_spaces (n m : Nat) (t : List Char) :
    afterNLAtLeast n (List.replicate m ' ' ++ t) = afterNLAtLeast n t := by
  induction m with
  | zero => rfl
  | succ k ih => simpa [List.replicate_succ, afterNLAtLeast] using ih

theorem afterNLAtLeast_replNL (n : Nat) (l : List Char) :
    afterNLAtLeast n (replNL n l) = true := by
  induction l with
  | nil => rfl
  | cons c rest ih =>
      by_cases hc : c = '\n'
      · subst hc
        have h1 : List.take n (List.replicate n ' ' ++ replNL n rest) =
            List.replicate n ' ' := by
          rw [List.take_append_of_le_length (by simp)]
          simp
        simp [replNL, afterNLAtLeast, h1, afterNLAtLeast_spaces, ih]
      · simpa [replNL, hc, afterNLAtLeast] using ih

/-- C5 (counterexample): at width 1 and text `"a\n b"` — one internal line
break, whose following character is a space — the code produces `"a\n  b"`,
whose line break is followed by two spaces, not exactly one; the claim's
"each line break in the result being followed by exactly n space
characters" fails. -/
theorem indent_exact_counterexample :
    indent 1 "a\n b" = some "a\n  b" ∧
    afterNLExact 1 ("a\n  b" : String).data = false := by
  constructor
  · rfl
  · rfl

/-- C5 (amended): for every non-negative width `n`, `indent` returns a value
performing exactly `k` replacements where `k` is the number of line breaks:
line-break count is preserved, the length grows by exactly `n` characters
per line break, each line break in the result is immediately followed by at
least `n` space characters (the inserted ones; more only when the original
text already had spaces after the break), and a text with zero line breaks
is returned unchanged. -/
theorem indent_spec_amended (n : Nat) (v : String) :
    ∃ r : String, indent (n : Int) v = some r ∧
      r.data.count '\n' = v.data.count '\n' ∧
      r.data.length = v.data.length + v.data.count '\n' * n ∧
      afterNLAtLeast n r.data = true ∧
      (v.data.count '\n' = 0 → r = v) := by
  refine ⟨⟨replNL n v.data⟩, ?_, ?_, ?_, ?_, ?_⟩
  · simp [indent]
  · exact replNL_count n v.data
  · exact replNL_length n v.data
  · exact afterNLAtLeast_replNL n v.data
  · intro h0
    show String.mk (replNL n v.data) = v
    rw [replNL_of_count_zero n v.data h0]

/-- Witness for `indent_spec_amended` at width 2 and text `"a\nb"`. -/
theorem indent_spec_amended_witness :
    indent 2 "a\nb" = some "a\n  b" ∧
    afterNLAtLeast 2 ("a\n  b" : String).data = true := by
  obtain ⟨r, h1, _, _, h4, _⟩ := indent_spec_amended 2 "a\nb"
  have hr : r = "a\n  b" := by
    have : some r = some ("a\n  b" : String) := by
      rw [← h1]; rfl
    injection this
  subst hr
  exact ⟨h1, h4⟩

/-- C10 (counterexample): the claim asserts `indent` is total whenever the
width is non-negative **or** the text has no line break; but at width `-1`
and text `"abc"` (no line break) the code still panics, because
`strings.Repeat(" ", -1)` is evaluated — and panics — before any
replacement is considered. -/
theorem indent_total_counterexample :
    ("abc" : String).data.count '\n' = 0 ∧ indent (-1) "abc" = none := by
  constructor
  · rfl
  · rfl

/-- C10 (amended): for every negative width `indent` panics on every text,
line breaks or not (the negative space-repetition count is evaluated
first); `indent` is total exactly when the width is non-negative. -/
theorem indent_panic_amended (n : Int) (v : String) :
    (n < 0 → indent n v = none) ∧ (0 ≤ n → ∃ r : String, indent n v = some r) := by
  constructor
  · intro hn
    simp [indent, hn]
  · intro hn
    refine ⟨⟨replNL n.toNat v.data⟩, ?_⟩
    simp [indent, Int.not_lt.mpr hn]

/-- Witness for `indent_panic_amended` at widths `-1` and `2`. -/
theorem indent_panic_amended_witness :
    indent (-1) "a\nb" = none ∧ ∃ r : String, indent 2 "xyz" = some r :=
  ⟨(indent_panic_amended (-1) "a\nb").1 (by decide),
   (indent_panic_amended 2 "xyz").2 (by decide)⟩

theorem foldl_strapp {α : Type} (g : α → String) (l : List α) (s : String) :
    (l.foldl (fun b x => b ++ g x) s).data =
      s.data ++ (l.map (fun x => (g x).data)).flatten := by
  induction l generalizing s with
  | nil => simp
  | cons a t ih => simp [ih]

theorem data_strJoin (l : List String) : (String.join l).data = (l.map String.data).flatten := by
  have h := foldl_strapp (fun s : String => s) l ""
  simpa [String.join] using h

theorem registriesFold_data (icss : List ImageContentSource) (s : String) :
    (icss.foldl (fun b ics =>
      (ics.mirrors.foldl (fun b mirror => b ++ mirrorLine mirror)
        (b ++ registryLine ics.source))) s).data =
    s.data ++ (icss.map fun ics => (icsBlock ics).data).flatten := by
  induction icss generalizing s with
  | nil => simp
  | cons ics t ih =>
      rw [List.foldl_cons, ih, foldl_strapp mirrorLine]
      simp [icsBlock, data_strJoin, List.map_map, Function.comp_def]

theorem registriesBuffer_eq (icss : List ImageContentSource) :
    aroWorkerRegistries icss = dataurlString (registriesConf icss) := by
  show dataurlString _ = dataurlString _
  congr 1
  apply String.ext
  rw [registriesConf]
  have h := registriesFold_data icss
    "unqualified-search-registries = [\"registry.access.redhat.com\", \"docker.io\"]\n"
  simp [h, data_strJoin, List.map_map, Function.comp_def]

theorem percentDecode_esc (h l : Char) (t : List Char) :
    percentDecode ('%' :: h :: l :: t) =
      Char.ofNat (16 * hexVal h + hexVal l) :: percentDecode t := rfl

theorem percentDecode_cons_ne (c : Char) (t : List Char) (hc : ¬ c = '%') :
    percentDecode (c :: t) = c :: percentDecode t := by
  rw [percentDecode.eq_def]
  split
  · rename_i h l rest heq
    injection heq with h1 h2
    exact absurd h1 hc
  · rename_i c2 rest2 x heq
    injection heq with h1 h2
    subst h1
    subst h2
    rfl
  · rename_i heq
    exact List.noConfusion heq

theorem urlUnreserved_ascii (c : Char) (h : urlUnreserved c = true) :
    c ≠ '\n' ∧ c.toNat < 128 := by
  simp only [urlUnreserved, Bool.or_eq_true, Bool.and_eq_true, decide_eq_true_eq] at h
  rcases h with (((((⟨h1, h2⟩ | ⟨h1, h2⟩) | ⟨h1, h2⟩) | rfl) | rfl) | rfl) | rfl
  · exact ⟨fun hc => by subst hc; revert h1; decide, by omega⟩
  · exact ⟨fun hc => by subst hc; revert h1; decide, by omega⟩
  · exact ⟨fun hc => by subst hc; revert h1; decide, by omega⟩
  · exact ⟨by decide, by decide⟩
  · exact ⟨by decide, by decide⟩
  · exact ⟨by decide, by decide⟩
  · exact ⟨by decide, by decide⟩

theorem hexDigit_ascii : ∀ d, d < 16 → hexDigit d ≠ '\n' ∧ (hexDigit d).toNat < 128 := by
  decide

theorem hexVal_hexDigit : ∀ d, d < 16 → hexVal (hexDigit d) = d := by
  decide

theorem percentEncode_ascii (l : List Char) (hl : ∀ c ∈ l, c.toNat < 128) :
    ∀ b ∈ percentEncode l, b ≠ '\n' ∧ b.toNat < 128 := by
  induction l with
  | nil => intro b hb; exact absurd hb (List.not_mem_nil b)
  | cons c rest ih =>
      intro b hb
      have hc : c.toNat < 128 := hl c (List.mem_cons_self c rest)
      have hrest : ∀ x ∈ rest, x.toNat < 128 :=
        fun x hx => hl x (List.mem_cons_of_mem _ hx)
      rw [show percentEncode (c :: rest) = percentEncodeChar c ++ percentEncode rest from rfl,
        List.mem_append] at hb
      rcases hb with hb | hb
      · rw [percentEncodeChar] at hb
        by_cases hu : urlUnreserved c = true
        · rw [if_pos hu] at hb
          rw [List.mem_singleton] at hb
          subst hb
          exact urlUnreserved_ascii b hu
        · rw [if_neg hu] at hb
          rcases hb with _ | ⟨_, (_ | ⟨_, (_ | ⟨_, h⟩)⟩)⟩
          · exact ⟨by decide, by decide⟩
          · exact hexDigit_ascii _ (by omega)
          · exact hexDigit_ascii _ (by omega)
          · exact absurd (by assumption) (List.not_mem_nil b)
      · exact ih hrest b hb

theorem percentDecode_encode (l : List Char) (hl : ∀ c ∈ l, c.toNat < 128) :
    percentDecode (percentEncode l) = l := by
  induction l with
  | nil => rfl
  | cons c rest ih =>
      have hc : c.toNat < 128 := hl c (List.mem_cons_self c rest)
      have hrest : ∀ x ∈ rest, x.toNat < 128 :=
        fun x hx => hl x (List.mem_cons_of_mem _ hx)
      show percentDecode (percentEncodeChar c ++ percentEncode rest) = c :: rest
      by_cases hu : urlUnreserved c = true
      · have hcp : ¬ c = '%' := by
          intro h
          subst h
          revert hu
          decide
        rw [percentEncodeChar, if_pos hu, List.singleton_append,
          percentDecode_cons_ne c _ hcp, ih hrest]
      · rw [percentEncodeChar, if_neg hu, List.cons_append, List.cons_append,
          List.cons_append, List.nil_append, percentDecode_esc,
          hexVal_hexDigit _ (by omega), hexVal_hexDigit _ (by omega),
          show 16 * (c.toNat / 16) + c.toNat % 16 = c.toNat by omega,
          Char.ofNat_toNat, ih hrest]

theorem dataurlString_data (s : String) :
    (dataurlString s).data = ("data:text/plain," : String).data ++ percentEncode s.data := by
  rfl

/-- C4: the worker-registries string is the data-URL encoding of the block
made of the unconditional default line followed, per entry in list order, by
one `[[registry]]` block carrying the entry's source and one nested
`[[registry.mirror]]` block per mirror in order; the result is a single line
of ASCII characters, its payload percent-decodes back to that block, and on
the single entry `{source: "registry.local", mirrors: ["mirror1", "mirror2"]}`
the decoded block contains exactly one `[[registry]]` occurrence and exactly
two `[[registry.mirror]]` occurrences. -/
theorem aroWorkerRegistries_spec (icss : List ImageContentSource)
    (hascii : ∀ c ∈ (registriesConf icss).data, c.toNat < 128) :
    aroWorkerRegistries icss = dataurlString (registriesConf icss) ∧
    (∀ b ∈ (aroWorkerRegistries icss).data, b ≠ '\n' ∧ b.toNat < 128) ∧
    percentDecode ((aroWorkerRegistries icss).data.drop 16) = (registriesConf icss).data ∧
    countOccur ("[[registry]]" : String).data
      (registriesConf [⟨"registry.local", ["mirror1", "mirror2"]⟩]).data = 1 ∧
    countOccur ("[[registry.mirror]]" : String).data
      (registriesConf [⟨"registry.local", ["mirror1", "mirror2"]⟩]).data = 2 := by
  have h1 := registriesBuffer_eq icss
  refine ⟨h1, ?_, ?_, by decide, by decide⟩
  · intro b hb
    rw [h1, dataurlString_data, List.mem_append] at hb
    rcases hb with hb | hb
    · revert hb
      revert b
      decide
    · exact percentEncode_ascii _ hascii b hb
  · rw [h1, dataurlString_data,
      show (("data:text/plain," : String).data ++
          percentEncode (registriesConf icss).data).drop 16 =
        percentEncode (registriesConf icss).data from by
        rw [show (16 : Nat) = ("data:text/plain," : String).data.length from rfl,
          List.drop_left]]
    exact percentDecode_encode _ hascii

/-- Witness for `aroWorkerRegistries_spec` at the single-entry example
input. -/
theorem aroWorkerRegistries_spec_witness :
    aroWorkerRegistries [⟨"registry.local", ["mirror1", "mirror2"]⟩] =
      dataurlString (registriesConf [⟨"registry.local", ["mirror1", "mirror2"]⟩]) ∧
    countOccur ("[[registry]]" : String).data
      (registriesConf [⟨"registry.local", ["mirror1", "mirror2"]⟩]).data = 1 ∧
    countOccur ("[[registry.mirror]]" : String).data
      (registriesConf [⟨"registry.local", ["mirror1", "mirror2"]⟩]).data = 2 :=
  ⟨(aroWorkerRegistries_spec [⟨"registry.local", ["mirror1", "mirror2"]⟩] (by decide)).1,
   (aroWorkerRegistries_spec [⟨"registry.local", ["mirror1", "mirror2"]⟩] (by decide)).2.2.2.1,
   (aroWorkerRegistries_spec [⟨"registry.local", ["mirror1", "mirror2"]⟩] (by decide)).2.2.2.2⟩

/-- C7: rendering a malformed bundled template — a syntax error rejected by
the parser, or an unresolvable field reference failing execution — aborts
the process (modelled `none`) rather than returning a recoverable error;
whenever rendering does return, the result is the successful render output,
so no error value is ever handed to the caller. -/
theorem applyTemplateData_spec (data : TemplateSrc) (td : bootkubeTemplateData) :
    (data = .malformed → applyTemplateData data td = none) ∧
    (∀ tokens e, data = .wellFormed tokens → execTemplate tokens td = .error e →
      applyTemplateData data td = none) ∧
    (∀ out, applyTemplateData data td = some out →
      ∃ tokens, data = .wellFormed tokens ∧ execTemplate tokens td = .ok out) := by
  refine ⟨fun hm => by rw [hm, applyTemplateData], ?_, ?_⟩
  · intro tokens e hw he
    rw [hw, applyTemplateData, he]
  · intro out hout
    cases data with
    | malformed => exact absurd hout (by rw [applyTemplateData]; exact Option.noConfusion)
    | wellFormed tokens =>
        refine ⟨tokens, rfl, ?_⟩
        rw [applyTemplateData] at hout
        cases he : execTemplate tokens td with
        | error e => rw [he] at hout; exact Option.noConfusion hout
        | ok s =>
            rw [he] at hout
            injection hout with h1
            rw [h1]

/-- Witness for `applyTemplateData_spec`: a malformed template and an
unresolvable field reference both panic at a concrete context. -/
theorem applyTemplateData_spec_witness :
    applyTemplateData .malformed tdZero = none ∧
    applyTemplateData (.wellFormed [.field "NoSuchField"]) tdZero = none :=
  ⟨(applyTemplateData_spec .malformed tdZero).1 rfl,
   (applyTemplateData_spec (.wellFormed [.field "NoSuchField"]) tdZero).2.1
     [.field "NoSuchField"] ("can't evaluate field " ++ "NoSuchField") rfl rfl⟩

theorem scanKubeSys_none (l : List File)
    (hl : ∀ fi ∈ l, fi.filename ≠ kubeSysConfigPath) :
    ∀ acc, scanKubeSys l acc = .ok acc := by
  induction l with
  | nil => intro acc; rfl
  | cons f rest ih =>
      intro acc
      rw [scanKubeSys, if_neg (hl f (List.mem_cons_self f rest))]
      exact ih (fun fi hfi => hl fi (List.mem_cons_of_mem _ hfi)) acc

/-- C3: if the three pattern fetches all succeed and yield no files, Load
reports "not found, no error" with the asset untouched; if they yield files
but none named `manifests/cluster-config.yaml`, Load also reports "not
found, no error" with the asset untouched; and if a pattern fetch fails,
Load returns the error wrapped with that pattern's context, storing no
files. -/
theorem load_notFound_and_error (f : FileFetcher) (m : Manifests) :
    (∀ l1 l2 l3, f "manifests/*.yaml" = .ok l1 → f "manifests/*.yml" = .ok l2 →
      f "manifests/*.json" = .ok l3 → l1 ++ l2 ++ l3 = [] →
      Manifests.load f m = (.ok false, m)) ∧
    (∀ l1 l2 l3, f "manifests/*.yaml" = .ok l1 → f "manifests/*.yml" = .ok l2 →
      f "manifests/*.json" = .ok l3 →
      (∀ fi ∈ l1 ++ l2 ++ l3, fi.filename ≠ kubeSysConfigPath) →
      Manifests.load f m = (.ok false, m)) ∧
    (∀ e, f "manifests/*.yaml" = .error e →
      Manifests.load f m = (.error (wrapErr "failed to load *.yaml files" e), m)) ∧
    (∀ l1 e, f "manifests/*.yaml" = .ok l1 → f "manifests/*.yml" = .error e →
      Manifests.load f m = (.error (wrapErr "failed to load *.yml files" e), m)) ∧
    (∀ l1 l2 e, f "manifests/*.yaml" = .ok l1 → f "manifests/*.yml" = .ok l2 →
      f "manifests/*.json" = .error e →
      Manifests.load f m = (.error (wrapErr "failed to load *.json files" e), m)) := by
  refine ⟨?_, ?_, ?_, ?_, ?_⟩
  · intro l1 l2 l3 h1 h2 h3 hnil
    rw [Manifests.load, h1, h2, h3]
    simp [hnil]
  · intro l1 l2 l3 h1 h2 h3 hctl
    rw [Manifests.load, h1, h2, h3]
    by_cases hlen : (l1 ++ l2 ++ l3).length = 0
    · have hnil : l1 ++ l2 ++ l3 = [] := List.length_eq_zero.mp hlen
      simp [hnil]
    · simp only [hlen, if_neg hlen, scanKubeSys_none _ hctl none]
      simp
  · intro e h1
    rw [Manifests.load, h1]
  · intro l1 e h1 h2
    rw [Manifests.load, h1, h2]
  · intro l1 l2 e h1 h2 h3
    rw [Manifests.load, h1, h2, h3]

/-- Witness for `load_notFound_and_error`: the empty directory, a directory
with one unrelated YAML file, and a failing fetcher, each at a concrete
fresh asset. -/
theorem load_notFound_and_error_witness :
    Manifests.load (fetchFrom []) ⟨none, []⟩ = (.ok false, ⟨none, []⟩) ∧
    Manifests.load (fetchFrom [⟨"manifests/other.yaml", .str "x"⟩]) ⟨none, []⟩ =
      (.ok false, ⟨none, []⟩) ∧
    Manifests.load fetchFail ⟨none, []⟩ =
      (.error (wrapErr "failed to load *.yaml files" "input output error"), ⟨none, []⟩) :=
  ⟨(load_notFound_and_error (fetchFrom []) ⟨none, []⟩).1 [] [] [] rfl rfl rfl rfl,
   (load_notFound_and_error (fetchFrom [⟨"manifests/other.yaml", .str "x"⟩]) ⟨none, []⟩).2.1
     [⟨"manifests/other.yaml", .str "x"⟩] [] [] rfl rfl rfl (by decide),
   (load_notFound_and_error fetchFail ⟨none, []⟩).2.2.1 "input output error" rfl⟩

theorem sortFiles_sorted (l : List File) : (sortFiles l).Pairwise fileLE :=
  List.sorted_insertionSort fileLE l

theorem sortFiles_perm (l : List File) : List.Perm (sortFiles l) l :=
  List.perm_insertionSort fileLE l

/-- C6: after a successful Generate and after a Load reporting found, the
asset's file list is sorted lexicographically by filename. -/
theorem fileList_sorted (p : Parents) (hp : Heap) (m : Manifests)
    (f : FileFetcher) (m0 m2 : Manifests) :
    (Manifests.generate p hp = some m → m.fileList.Pairwise fileLE) ∧
    (Manifests.load f m0 = (.ok true, m2) → m2.fileList.Pairwise fileLE) := by
  constructor
  · intro hgen
    cases hb : generateBootKubeManifests p with
    | none => rw [Manifests.generate, hb] at hgen; exact absurd hgen (by simp)
    | some bk =>
        rw [Manifests.generate, hb] at hgen
        rw [← Option.some.inj hgen]
        exact sortFiles_sorted _
  · intro hload
    unfold Manifests.load at hload
    split at hload
    · simp at hload
    · split at hload
      · simp at hload
      · split at hload
        · simp at hload
        · simp only [] at hload
          split at hload
          · simp at hload
          · split at hload
            · simp at hload
            · simp at hload
            · have h2 := congrArg Prod.snd hload
              simp only at h2
              rw [← h2]
              exact sortFiles_sorted _

/-- Witness for `fileList_sorted`: the Generate output at `pW` and the state
after a found-reporting Load over its persisted files. -/
theorem fileList_sorted_witness :
    mW.fileList.Pairwise fileLE ∧
    ((Manifests.load (fetchFrom mW.fileList) ⟨none, []⟩).2).fileList.Pairwise fileLE :=
  ⟨(fileList_sorted pW [] mW fetchFail ⟨none, []⟩ ⟨none, []⟩).1 (by decide),
   (fileList_sorted pW [] mW (fetchFrom mW.fileList) ⟨none, []⟩
      ((Manifests.load (fetchFrom mW.fileList) ⟨none, []⟩).2)).2 (by decide)⟩

theorem matchExt_excl (e1 e2 : String) (name : String)
    (h12 : ¬ e1.data <:+ e2.data) (h21 : ¬ e2.data <:+ e1.data) :
    ¬ (matchExt e1 name = true ∧ matchExt e2 name = true) := by
  rintro ⟨m1, m2⟩
  unfold matchExt at m1 m2
  simp only [Bool.and_eq_true, List.isSuffixOf_iff_suffix] at m1 m2
  rcases List.suffix_or_suffix_of_suffix m1.2.2 m2.2.2 with h | h
  · exact h12 h
  · exact h21 h

theorem filter3_perm {α : Type} (q1 q2 q3 : α → Bool) (l : List α)
    (hone : ∀ x ∈ l, q1 x = true ∨ q2 x = true ∨ q3 x = true)
    (h12 : ∀ x, ¬(q1 x = true ∧ q2 x = true))
    (h13 : ∀ x, ¬(q1 x = true ∧ q3 x = true))
    (h23 : ∀ x, ¬(q2 x = true ∧ q3 x = true)) :
    List.Perm (l.filter q1 ++ l.filter q2 ++ l.filter q3) l := by
  induction l with
  | nil => simp
  | cons x t ih =>
      have iht := ih (fun y hy => hone y (List.mem_cons_of_mem _ hy))
      rcases hone x (List.mem_cons_self x t) with hq | hq | hq
      · have hq2 : q2 x = false := by
          rcases hx2 : q2 x with _ | _
          · rfl
          · exact absurd ⟨hq, hx2⟩ (h12 x)
        have hq3 : q3 x = false := by
          rcases hx3 : q3 x with _ | _
          · rfl
          · exact absurd ⟨hq, hx3⟩ (h13 x)
        simp only [List.filter_cons, hq, hq2, hq3, if_true, if_false,
          Bool.false_eq_true, List.cons_append]
        exact iht.cons x
      · have hq1 : q1 x = false := by
          rcases hx1 : q1 x with _ | _
          · rfl
          · exact absurd ⟨hx1, hq⟩ (h12 x)
        have hq3 : q3 x = false := by
          rcases hx3 : q3 x with _ | _
          · rfl
          · exact absurd ⟨hq, hx3⟩ (h23 x)
        simp only [List.filter_cons, hq, hq1, hq3, if_true, if_false,
          Bool.false_eq_true, List.cons_append]
        have he : t.filter q1 ++ (x :: t.filter q2) ++ t.filter q3
            = t.filter q1 ++ x :: (t.filter q2 ++ t.filter q3) := by simp
        rw [he]
        refine List.Perm.trans List.perm_middle ?_
        refine List.Perm.cons x ?_
        have he2 : t.filter q1 ++ (t.filter q2 ++ t.filter q3)
            = t.filter q1 ++ t.filter q2 ++ t.filter q3 := by simp
        rw [he2]
        exact iht
      · have hq1 : q1 x = false := by
          rcases hx1 : q1 x with _ | _
          · rfl
          · exact absurd ⟨hx1, hq⟩ (h13 x)
        have hq2 : q2 x = false := by
          rcases hx2 : q2 x with _ | _
          · rfl
          · exact absurd ⟨hx2, hq⟩ (h23 x)
        simp only [List.filter_cons, hq, hq1, hq2, if_true, if_false,
          Bool.false_eq_true, List.cons_append]
        refine List.Perm.trans List.perm_middle ?_
        exact List.Perm.cons x iht

theorem scanKubeSys_acc_some (l : List File) (c : configurationObject)
    (hall : ∀ fi ∈ l, fi.filename = kubeSysConfigPath → fi.data = .obj c) :
    scanKubeSys l (some c) = .ok (some c) := by
  induction l with
  | nil => rfl
  | cons f rest ih =>
      rw [scanKubeSys]
      by_cases hf : f.filename = kubeSysConfigPath
      · rw [if_pos hf, hall f (List.mem_cons_self f rest) hf]
        exact ih (fun fi hfi => hall fi (List.mem_cons_of_mem _ hfi))
      · rw [if_neg hf]
        exact ih (fun fi hfi => hall fi (List.mem_cons_of_mem _ hfi))

theorem scanKubeSys_found (l : List File) (c : configurationObject)
    (hall : ∀ fi ∈ l, fi.filename = kubeSysConfigPath → fi.data = .obj c)
    (hmem : ∃ fi ∈ l, fi.filename = kubeSysConfigPath) :
    scanKubeSys l none = .ok (some c) := by
  induction l with
  | nil => obtain ⟨fi, hfi, _⟩ := hmem; exact absurd hfi (List.not_mem_nil fi)
  | cons f rest ih =>
      rw [scanKubeSys]
      by_cases hf : f.filename = kubeSysConfigPath
      · rw [if_pos hf, hall f (List.mem_cons_self f rest) hf]
        exact scanKubeSys_acc_some rest c
          (fun fi hfi => hall fi (List.mem_cons_of_mem _ hfi))
      · rw [if_neg hf]
        refine ih (fun fi hfi => hall fi (List.mem_cons_of_mem _ hfi)) ?_
        obtain ⟨fi, hfi, hname⟩ := hmem
        rcases List.mem_cons.mp hfi with rfl | hfi2
        · exact absurd hname hf
        · exact ⟨fi, hfi2, hname⟩

theorem generate_eq (p : Parents) (h : Heap) (m : Manifests)
    (hgen : Manifests.generate p h = some m) :
    ∃ bk, generateBootKubeManifests p = some bk ∧
      m.kubeSysConfig = some (generatedKubeSys p h) ∧
      m.fileList = sortFiles ((controlFile p h :: bk)
        ++ p.ingressFiles ++ p.dnsFiles ++ p.networkFiles ++ p.infraFiles
        ++ p.proxyFiles ++ p.schedulerFiles ++ p.icspFiles) := by
  cases hb : generateBootKubeManifests p with
  | none =>
      simp only [Manifests.generate, hb] at hgen
      exact Option.noConfusion hgen
  | some bk =>
      simp only [Manifests.generate, hb, Option.some.injEq] at hgen
      exact ⟨bk, rfl, by rw [← hgen]; rfl, by rw [← hgen]; rfl⟩

/-- C2: for dependency inputs on which Generate succeeds and whose output
filenames all match one of the three load patterns and are pairwise
distinct (the spec's persisted-layout and uniqueness invariants), persisting
the generated file set and running Load on a fresh asset reports found,
recovers a control-manifest object deep-equal to the generated one
(including its `install-config` datum), and stores a file list with exactly
the same set of filenames. -/
theorem generate_load_roundTrip (p : Parents) (hp : Heap) (m m0 : Manifests)
    (hgen : Manifests.generate p hp = some m)
    (hpat : ∀ fi ∈ m.fileList, matchExt ".yaml" fi.filename = true ∨
        matchExt ".yml" fi.filename = true ∨ matchExt ".json" fi.filename = true)
    (hnodup : (m.fileList.map File.filename).Nodup) :
    ∃ m2, Manifests.load (fetchFrom m.fileList) m0 = (.ok true, m2) ∧
      m2.kubeSysConfig = m.kubeSysConfig ∧
      (∀ n, n ∈ m2.fileList.map File.filename ↔ n ∈ m.fileList.map File.filename) := by
  obtain ⟨bk, hbk, hksc, hfl⟩ := generate_eq p hp m hgen
  have hmemctl : controlFile p hp ∈ m.fileList := by
    rw [hfl]
    refine (sortFiles_perm _).mem_iff.mpr ?_
    simp
  have hcomb : List.Perm
      (m.fileList.filter (fun fi => matchExt ".yaml" fi.filename) ++
        m.fileList.filter (fun fi => matchExt ".yml" fi.filename) ++
        m.fileList.filter (fun fi => matchExt ".json" fi.filename)) m.fileList :=
    filter3_perm _ _ _ m.fileList hpat
      (fun x => matchExt_excl ".yaml" ".yml" x.filename (by decide) (by decide))
      (fun x => matchExt_excl ".yaml" ".json" x.filename (by decide) (by decide))
      (fun x => matchExt_excl ".yml" ".json" x.filename (by decide) (by decide))
  have hmemc : controlFile p hp ∈
      (m.fileList.filter (fun fi => matchExt ".yaml" fi.filename) ++
        m.fileList.filter (fun fi => matchExt ".yml" fi.filename) ++
        m.fileList.filter (fun fi => matchExt ".json" fi.filename)) :=
    hcomb.mem_iff.mpr hmemctl
  have hlen : ¬ (m.fileList.filter (fun fi => matchExt ".yaml" fi.filename) ++
      m.fileList.filter (fun fi => matchExt ".yml" fi.filename) ++
      m.fileList.filter (fun fi => matchExt ".json" fi.filename)).length = 0 := by
    intro h0
    rw [List.length_eq_zero] at h0
    rw [h0] at hmemc
    exact List.not_mem_nil _ hmemc
  have hall : ∀ fi ∈
      (m.fileList.filter (fun fi => matchExt ".yaml" fi.filename) ++
        m.fileList.filter (fun fi => matchExt ".yml" fi.filename) ++
        m.fileList.filter (fun fi => matchExt ".json" fi.filename)),
      fi.filename = kubeSysConfigPath → fi.data = .obj (generatedKubeSys p hp) := by
    intro fi hfi hname
    have hfi2 : fi ∈ m.fileList := hcomb.mem_iff.mp hfi
    have heqc : fi = controlFile p hp :=
      List.inj_on_of_nodup_map hnodup hfi2 hmemctl (by rw [hname]; rfl)
    rw [heqc]
    rfl
  have hscan := scanKubeSys_found _ (generatedKubeSys p hp) hall
    ⟨controlFile p hp, hmemc, rfl⟩
  have hf1 : fetchFrom m.fileList "manifests/*.yaml" =
      .ok (m.fileList.filter (fun fi => matchExt ".yaml" fi.filename)) := by
    simp [fetchFrom]
  have hf2 : fetchFrom m.fileList "manifests/*.yml" =
      .ok (m.fileList.filter (fun fi => matchExt ".yml" fi.filename)) := by
    simp [fetchFrom]
  have hf3 : fetchFrom m.fileList "manifests/*.json" =
      .ok (m.fileList.filter (fun fi => matchExt ".json" fi.filename)) := by
    simp [fetchFrom]
  refine ⟨⟨some (generatedKubeSys p hp),
    sortFiles (m.fileList.filter (fun fi => matchExt ".yaml" fi.filename) ++
      m.fileList.filter (fun fi => matchExt ".yml" fi.filename) ++
      m.fileList.filter (fun fi => matchExt ".json" fi.filename))⟩, ?_, ?_, ?_⟩
  · simp only [Manifests.load, hf1, hf2, hf3]
    rw [if_neg hlen, hscan]
  · rw [hksc]
  · intro n
    have hp2 : List.Perm
        (sortFiles (m.fileList.filter (fun fi => matchExt ".yaml" fi.filename) ++
          m.fileList.filter (fun fi => matchExt ".yml" fi.filename) ++
          m.fileList.filter (fun fi => matchExt ".json" fi.filename))) m.fileList :=
      (sortFiles_perm _).trans hcomb
    exact (hp2.map File.filename).mem_iff

/-- Witness for `generate_load_roundTrip`: the persisted Generate output at
`pW` loads back as found, with the same control object and filename set. -/
theorem generate_load_roundTrip_witness :
    (Manifests.load (fetchFrom mW.fileList) ⟨none, []⟩).1 = .ok true ∧
    (Manifests.load (fetchFrom mW.fileList) ⟨none, []⟩).2.kubeSysConfig =
      mW.kubeSysConfig := by
  obtain ⟨m2, h1, h2, h3⟩ :=
    generate_load_roundTrip pW [] mW ⟨none, []⟩ (by decide) (by decide) (by decide)
  rw [h1]
  exact ⟨rfl, h2⟩

theorem mapM_render_names (td : bootkubeTemplateData) :
    ∀ (ts : List TemplateFile) (bk : List File),
      ts.mapM (fun f => (applyTemplateData f.src td).map
        (fun out => ({ filename := bootkubeOutName f, data := .str out } : File))) =
          some bk →
      bk.map File.filename = ts.map bootkubeOutName := by
  intro ts
  induction ts with
  | nil =>
      intro bk h
      simp only [List.mapM_nil, pure, Option.some.injEq] at h
      rw [← h]
      rfl
  | cons t rest ih =>
      intro bk h
      rw [List.mapM_cons] at h
      cases hft : applyTemplateData t.src td with
      | none => rw [hft] at h; exact Option.noConfusion h
      | some out =>
          rw [hft] at h
          cases hrest : rest.mapM (fun f => (applyTemplateData f.src td).map
              (fun out => ({ filename := bootkubeOutName f, data := .str out } : File))) with
          | none =>
              rw [hrest] at h
              exact Option.noConfusion h
          | some xs =>
              rw [hrest] at h
              have h2 : some ((⟨bootkubeOutName t, FileData.str out⟩ : File) :: xs) =
                  some bk := h
              rw [← Option.some.inj h2, List.map_cons, List.map_cons, ih xs hrest]

theorem bootkube_names (p : Parents) (bk : List File)
    (h : generateBootKubeManifests p = some bk) :
    bk.map File.filename = p.bootkubeTemplateFiles.map bootkubeOutName := by
  unfold generateBootKubeManifests at h
  exact mapM_render_names (mkBootkubeTemplateData p) p.bootkubeTemplateFiles bk h

/-- C8 (counterexample): at `pEx` — a collaborator asset handing Generate
two files both named `manifests/dup.yaml` — Generate succeeds and its output
file set carries a duplicated filename: the code performs no deduplication,
so pairwise distinctness is not guaranteed for every successful Generate. -/
theorem generate_duplicateNames_counterexample :
    (Manifests.generate pEx []).map
      (fun m => decide (m.fileList.map File.filename).Nodup) = some false := by
  decide

/-- C8 (amended): in every file set produced by a successful Generate call,
filenames are pairwise distinct provided the inputs are collision-free: the
transformed rendered-template names, the control-manifest name and the
collaborator asset filenames are pairwise distinct.  Generate itself
neither deduplicates nor can it merge distinct input names. -/
theorem generate_distinctNames_amended (p : Parents) (h : Heap) (m : Manifests)
    (hgen : Manifests.generate p h = some m)
    (hin : (kubeSysConfigPath :: (p.bootkubeTemplateFiles.map bootkubeOutName ++
      (p.ingressFiles.map File.filename ++ (p.dnsFiles.map File.filename ++
      (p.networkFiles.map File.filename ++ (p.infraFiles.map File.filename ++
      (p.proxyFiles.map File.filename ++ (p.schedulerFiles.map File.filename ++
      p.icspFiles.map File.filename)))))))).Nodup) :
    (m.fileList.map File.filename).Nodup := by
  obtain ⟨bk, hbk, hksc, hfl⟩ := generate_eq p h m hgen
  rw [hfl]
  refine (List.Perm.nodup_iff ((sortFiles_perm _).map File.filename)).mpr ?_
  have hnames : ((controlFile p h :: bk)
      ++ p.ingressFiles ++ p.dnsFiles ++ p.networkFiles ++ p.infraFiles
      ++ p.proxyFiles ++ p.schedulerFiles ++ p.icspFiles).map File.filename =
      kubeSysConfigPath :: (p.bootkubeTemplateFiles.map bootkubeOutName ++
      (p.ingressFiles.map File.filename ++ (p.dnsFiles.map File.filename ++
      (p.networkFiles.map File.filename ++ (p.infraFiles.map File.filename ++
      (p.proxyFiles.map File.filename ++ (p.schedulerFiles.map File.filename ++
      p.icspFiles.map File.filename))))))) := by
    simp [bootkube_names p bk hbk, controlFile]
  rw [hnames]
  exact hin

/-- Witness for `generate_distinctNames_amended` at the collision-free
input `pW`. -/
theorem generate_distinctNames_amended_witness :
    (mW.fileList.map File.filename).Nodup :=
  generate_distinctNames_amended pW [] mW (by decide) (by decide)

theorem base64Encode_ne_empty (s : String) (hs : s ≠ "") : base64Encode s ≠ "" := by
  intro h
  apply hs
  cases hd : s.data with
  | nil => exact String.ext hd
  | cons b0 rest =>
      exfalso
      have hb : base64Encode s = ⟨base64EncodeBytes ((b0 :: rest).map Char.toNat)⟩ := by
        rw [base64Encode, hd]
      rw [hb] at h
      have hdata := congrArg String.data h
      simp only at hdata
      cases rest with
      | nil => exact List.noConfusion hdata
      | cons b1 rest2 =>
          cases rest2 with
          | nil => exact List.noConfusion hdata
          | cons b2 rest3 => exact List.noConfusion hdata

/-- C9: for a configuration with a non-empty pull secret, the shared
template context carries the pull secret base64-encoded from the original,
unredacted configuration (in particular it is non-empty, and a template
substituting `.PullSecretBase64` renders exactly that encoding), while the
control manifest the same Generate call embeds serializes the redacted
configuration, whose pull secret field is empty. -/
theorem pullSecret_template_unredacted (p : Parents) (hp : Heap) (m : Manifests)
    (hwf : p.installConfig.config.wfIn hp)
    (hps : p.installConfig.config.pullSecret ≠ "")
    (hgen : Manifests.generate p hp = some m) :
    (mkBootkubeTemplateData p).PullSecretBase64 =
      base64Encode p.installConfig.config.pullSecret ∧
    (mkBootkubeTemplateData p).PullSecretBase64 ≠ "" ∧
    applyTemplateData (.wellFormed [.field "PullSecretBase64"])
      (mkBootkubeTemplateData p) =
      some (base64Encode p.installConfig.config.pullSecret) ∧
    m.kubeSysConfig = some (configMap "kube-system" "cluster-config-v1"
      [("install-config",
        renderInstallConfig { p.installConfig.config.view hp with
          pullSecret := ""
          vsphere := (p.installConfig.config.view hp).vsphere.map
            clearVSphereCreds })]) := by
  obtain ⟨bk, hbk, hksc, hfl⟩ := generate_eq p hp m hgen
  refine ⟨rfl, base64Encode_ne_empty _ hps, rfl, ?_⟩
  rw [hksc, generatedKubeSys, redactedInstallConfig_fst _ _ hwf]

/-- Witness for `pullSecret_template_unredacted` at `pW` (pull secret
`"abc"`, whose base64 encoding is `"YWJj"`). -/
theorem pullSecret_template_unredacted_witness :
    (mkBootkubeTemplateData pW).PullSecretBase64 = "YWJj" ∧
    applyTemplateData (.wellFormed [.field "PullSecretBase64"])
      (mkBootkubeTemplateData pW) = some "YWJj" ∧
    mW.kubeSysConfig = some (configMap "kube-system" "cluster-config-v1"
      [("install-config",
        renderInstallConfig { pW.installConfig.config.view [] with
          pullSecret := ""
          vsphere := (pW.installConfig.config.view []).vsphere.map
            clearVSphereCreds })]) := by
  obtain ⟨h1, h2, h3, h4⟩ := pullSecret_template_unredacted pW [] mW
    (by intro a ha; exact Option.noConfusion ha) (by decide) (by decide)
  refine ⟨?_, ?_, h4⟩
  · rw [h1]
    decide
  · rw [h3]
    decide

end ARORP
